import Mathlib

/-!
Shallow embedding of the SideSwap dealer example
(`src/rust/sideswap_dealer_example/src/main.rs`) and verification of its
specification claims.

The dealer's event loop owns two pieces of state:
  * `utxos : Utxos` — the coin ledger, a `BTreeMap<TxOut, Utxo>` modelled as an
    association list in map order; each `Utxo` carries an optional reservation
    tag (`reserve : Option OrderId`);
  * `swaps : Swaps` — the order table, a `BTreeMap<OrderId, ActiveSwap>`.

External collaborators (the pricing adapter `dealer::get_proposal`, the venue
round-trip `send_request!`, the coin selector `types::select_utxo`, the wallet
RPC pipeline) appear as oracle parameters of the handler functions: the
handler's branching on their results is translated from the source, while their
own computation is left abstract.  A handler returns `none` when the source
panics (`assert!` / `expect`), i.e. a fatal, process-ending error.
-/

namespace SideswapDealer

abbrev OrderId := String
abbrev AssetId := String

/-- Key of the coin ledger: transaction id plus output index. -/
structure TxOut where
  txid : String
  vout : Nat
deriving DecidableEq, Repr

/-- One row returned by the external unspent-output source (`rpc::UnspentItem`).
`amountSat` is the satoshi value `Amount::from_rpc(&item.amount).to_sat()`
already converted, since the conversion lives in the external `types` crate. -/
structure UnspentItem where
  key : TxOut
  asset : AssetId
  amountSat : Int
  confirmations : Int
deriving DecidableEq, Repr

/-- `item.tx_out()` from the source: the ledger key of an unspent item. -/
def UnspentItem.tx_out (i : UnspentItem) : TxOut := i.key

/-- A coin record of the ledger (`struct Utxo`). -/
structure Utxo where
  item : UnspentItem
  reserve : Option OrderId
  amount : Int
deriving DecidableEq, Repr

/-- `type Utxos = BTreeMap<TxOut, Utxo>`, in map order. -/
abbrev Utxos := List (TxOut × Utxo)

/-- Swap terms echoed by the venue (the fields of `sideswap_api::Swap` the
dealer reads). -/
structure Swap where
  send_asset : AssetId
  send_amount : Int
  recv_asset : AssetId
  recv_amount : Int
deriving DecidableEq, Repr

/-- An order record (`struct ActiveSwap`). -/
structure ActiveSwap where
  proposal : Int
  change_amount : Int
  sell_asset : AssetId
  swap : Option Swap
deriving DecidableEq, Repr

/-- The order table `swaps : BTreeMap<OrderId, ActiveSwap>`. -/
abbrev Swaps := List (OrderId × ActiveSwap)

/-- `fn free_reservation(order_id, utxos)`: clears `reserve` on every value
whose reservation equals the given order id (lines 60-67 of the source). -/
def free_reservation (order_id : OrderId) (utxos : Utxos) : Utxos :=
  utxos.map (fun kv =>
    if kv.2.reserve = some order_id then (kv.1, { kv.2 with reserve := none }) else kv)

lemma free_reservation_clears (o : OrderId) (utxos : Utxos) :
    ∀ kv ∈ free_reservation o utxos, kv.2.reserve ≠ some o := by
  intro kv hkv
  simp only [free_reservation, List.mem_map] at hkv
  obtain ⟨kv₀, _, rfl⟩ := hkv
  by_cases h : kv₀.2.reserve = some o <;> simp [h]

lemma free_reservation_pointwise (o : OrderId) (utxos : Utxos) :
    List.Forall₂ (fun kv kv' : TxOut × Utxo =>
      kv'.1 = kv.1 ∧
        (if kv.2.reserve = some o then kv'.2 = { kv.2 with reserve := none }
         else kv' = kv)) utxos (free_reservation o utxos) := by
  induction utxos with
  | nil => exact List.Forall₂.nil
  | cons kv rest ih =>
    refine List.Forall₂.cons ?_ ih
    by_cases h : kv.2.reserve = some o <;> simp [h]

lemma free_reservation_idem (o : OrderId) (utxos : Utxos) :
    free_reservation o (free_reservation o utxos) = free_reservation o utxos := by
  induction utxos with
  | nil => rfl
  | cons kv rest ih =>
    by_cases h : kv.2.reserve = some o <;>
      simp [free_reservation, h] at ih ⊢ <;> simpa [free_reservation] using ih

lemma free_reservation_noop (o : OrderId) (utxos : Utxos)
    (h : ∀ kv ∈ utxos, kv.2.reserve ≠ some o) :
    free_reservation o utxos = utxos := by
  induction utxos with
  | nil => rfl
  | cons kv rest ih =>
    have hkv : kv.2.reserve ≠ some o := h kv (by simp)
    have hrest := ih (fun kv' hkv' => h kv' (by simp [hkv']))
    simp [free_reservation, hkv] at hrest ⊢
    exact hrest

/-- C7: releasing an order clears the tag of every UTXO tagged with that order,
changes nothing else (key, item, amount of every entry are preserved, and an
entry not tagged with the order is untouched), is idempotent, and is a no-op
when nothing carries the tag. -/
theorem free_reservation_release_semantics (o : OrderId) (utxos : Utxos) :
    (∀ kv ∈ free_reservation o utxos, kv.2.reserve ≠ some o)
    ∧ List.Forall₂ (fun kv kv' : TxOut × Utxo =>
        kv'.1 = kv.1 ∧
          (if kv.2.reserve = some o then kv'.2 = { kv.2 with reserve := none }
           else kv' = kv)) utxos (free_reservation o utxos)
    ∧ free_reservation o (free_reservation o utxos) = free_reservation o utxos
    ∧ ((∀ kv ∈ utxos, kv.2.reserve ≠ some o) → free_reservation o utxos = utxos) :=
  ⟨free_reservation_clears o utxos, free_reservation_pointwise o utxos,
    free_reservation_idem o utxos, free_reservation_noop o utxos⟩

/-- `UNSPENT_MIN_CONF` from the source. -/
def UNSPENT_MIN_CONF : Int := 1

/-- `utxos.entry(item.tx_out()).or_insert(Utxo { amount, item, reserve: None })`
from the `Msg::NewBlock` arm: inserts a fresh unreserved record only when the
key is not yet present. -/
def entryOrInsert (utxos : Utxos) (item : UnspentItem) : Utxos :=
  if item.tx_out ∈ utxos.map Prod.fst then utxos
  else utxos ++ [(item.tx_out, { item := item, reserve := none, amount := item.amountSat })]

/-- The confirmed part of the external unspent view: `unspent_with_zc` with
rows below the confirmation threshold filtered out (`confirmations >=
UNSPENT_MIN_CONF`). -/
def confirmedView (unspent_with_zc : List UnspentItem) : List UnspentItem :=
  unspent_with_zc.filter (fun item => decide (item.confirmations ≥ UNSPENT_MIN_CONF))

/-- `new_keys` of the `Msg::NewBlock` arm: keys of the confirmed view. -/
def newViewKeys (unspent_with_zc : List UnspentItem) : List TxOut :=
  (confirmedView unspent_with_zc).map UnspentItem.tx_out

/-- The `Msg::NewBlock` arm (lines 445-471): filter the external unspent view by
the confirmation threshold, insert unseen outputs unreserved (`or_insert`), and
remove every previously tracked output (`old_keys`, keys before insertion)
absent from the new view. -/
def handleNewBlock (unspent_with_zc : List UnspentItem) (utxos : Utxos) : Utxos :=
  ((confirmedView unspent_with_zc).foldl entryOrInsert utxos).filter
    (fun kv => decide ¬(kv.1 ∈ utxos.map Prod.fst ∧ kv.1 ∉ newViewKeys unspent_with_zc))

lemma entryOrInsert_sublist (utxos : Utxos) (item : UnspentItem) :
    utxos.Sublist (entryOrInsert utxos item) := by
  unfold entryOrInsert
  split
  · exact List.Sublist.refl _
  · exact List.sublist_append_left _ _

lemma foldl_entryOrInsert_sublist (l : List UnspentItem) (utxos : Utxos) :
    utxos.Sublist (l.foldl entryOrInsert utxos) := by
  induction l generalizing utxos with
  | nil => exact List.Sublist.refl _
  | cons a rest ih =>
    exact (entryOrInsert_sublist utxos a).trans (ih (entryOrInsert utxos a))

lemma mem_entryOrInsert (utxos : Utxos) (item : UnspentItem) {kv : TxOut × Utxo}
    (h : kv ∈ entryOrInsert utxos item) : kv ∈ utxos ∨ kv.1 = item.tx_out := by
  unfold entryOrInsert at h
  split at h
  · exact Or.inl h
  · rcases List.mem_append.1 h with h' | h'
    · exact Or.inl h'
    · simp at h'
      exact Or.inr (by simp [h'])

lemma mem_foldl_entryOrInsert (l : List UnspentItem) (utxos : Utxos) {kv : TxOut × Utxo}
    (h : kv ∈ l.foldl entryOrInsert utxos) :
    kv ∈ utxos ∨ kv.1 ∈ l.map UnspentItem.tx_out := by
  induction l generalizing utxos with
  | nil => exact Or.inl h
  | cons a rest ih =>
    rcases ih (entryOrInsert utxos a) h with h' | h'
    · rcases mem_entryOrInsert utxos a h' with h'' | h''
      · exact Or.inl h''
      · exact Or.inr (by simp [h''])
    · exact Or.inr (by simp [h'])

lemma key_mem_entryOrInsert (utxos : Utxos) (item : UnspentItem) :
    item.tx_out ∈ (entryOrInsert utxos item).map Prod.fst := by
  unfold entryOrInsert
  split
  · assumption
  · simp

lemma keys_mono_entryOrInsert (utxos : Utxos) (item : UnspentItem) {k : TxOut}
    (h : k ∈ utxos.map Prod.fst) : k ∈ (entryOrInsert utxos item).map Prod.fst := by
  exact (entryOrInsert_sublist utxos item).map Prod.fst |>.mem h

lemma keys_mono_foldl_entryOrInsert (l : List UnspentItem) (utxos : Utxos) {k : TxOut}
    (h : k ∈ utxos.map Prod.fst) : k ∈ (l.foldl entryOrInsert utxos).map Prod.fst := by
  exact (foldl_entryOrInsert_sublist l utxos).map Prod.fst |>.mem h

lemma key_mem_foldl_entryOrInsert (l : List UnspentItem) {a : UnspentItem}
    (ha : a ∈ l) : ∀ utxos : Utxos, a.tx_out ∈ (l.foldl entryOrInsert utxos).map Prod.fst := by
  induction l with
  | nil => cases ha
  | cons b rest ih =>
    intro utxos
    rcases List.mem_cons.1 ha with rfl | ha'
    · exact keys_mono_foldl_entryOrInsert rest (entryOrInsert utxos a)
        (key_mem_entryOrInsert utxos a)
    · exact ih ha' (entryOrInsert utxos b)

lemma foldl_entryOrInsert_noop (l : List UnspentItem) (utxos : Utxos)
    (h : ∀ a ∈ l, a.tx_out ∈ utxos.map Prod.fst) : l.foldl entryOrInsert utxos = utxos := by
  induction l with
  | nil => rfl
  | cons a rest ih =>
    have ha : entryOrInsert utxos a = utxos := by
      unfold entryOrInsert
      rw [if_pos (h a (by simp))]
    simp only [List.foldl_cons, ha]
    exact ih (fun b hb => h b (by simp [hb]))

lemma mem_handleNewBlock_key (unspent : List UnspentItem) (utxos : Utxos) {kv : TxOut × Utxo}
    (h : kv ∈ handleNewBlock unspent utxos) : kv.1 ∈ newViewKeys unspent := by
  unfold handleNewBlock at h
  have h1 := List.mem_filter.1 h
  have hmem := h1.1
  have hcond := h1.2
  simp only [decide_eq_true_eq, not_and, not_not] at hcond
  rcases mem_foldl_entryOrInsert _ _ hmem with h' | h'
  · exact hcond (List.mem_map.2 ⟨kv, h', rfl⟩)
  · exact h'

lemma persist_handleNewBlock (unspent : List UnspentItem) (utxos : Utxos) {kv : TxOut × Utxo}
    (hmem : kv ∈ utxos) (hkey : kv.1 ∈ newViewKeys unspent) :
    kv ∈ handleNewBlock unspent utxos := by
  unfold handleNewBlock
  refine List.mem_filter.2 ⟨?_, ?_⟩
  · exact (foldl_entryOrInsert_sublist _ _).mem hmem
  · simp only [decide_eq_true_eq, not_and, not_not]
    exact fun _ => hkey

lemma newViewKeys_mem_handleNewBlock (unspent : List UnspentItem) (utxos : Utxos) {k : TxOut}
    (hk : k ∈ newViewKeys unspent) :
    k ∈ (handleNewBlock unspent utxos).map Prod.fst := by
  unfold newViewKeys at hk
  obtain ⟨a, ha, rfl⟩ := List.mem_map.1 hk
  unfold handleNewBlock
  have h1 : a.tx_out ∈ ((confirmedView unspent).foldl entryOrInsert utxos).map Prod.fst :=
    key_mem_foldl_entryOrInsert _ ha utxos
  obtain ⟨kv, hkv, hkvk⟩ := List.mem_map.1 h1
  refine List.mem_map.2 ⟨kv, List.mem_filter.2 ⟨hkv, ?_⟩, hkvk⟩
  simp only [decide_eq_true_eq, not_and, not_not]
  intro _
  rw [hkvk]
  unfold newViewKeys
  exact List.mem_map.2 ⟨a, ha, rfl⟩

lemma handleNewBlock_idem (unspent : List UnspentItem) (utxos : Utxos) :
    handleNewBlock unspent (handleNewBlock unspent utxos) = handleNewBlock unspent utxos := by
  have hkeys : ∀ kv ∈ handleNewBlock unspent utxos, kv.1 ∈ newViewKeys unspent :=
    fun kv hkv => mem_handleNewBlock_key unspent utxos hkv
  have hfold :
      (confirmedView unspent).foldl entryOrInsert (handleNewBlock unspent utxos)
        = handleNewBlock unspent utxos := by
    refine foldl_entryOrInsert_noop _ _ ?_
    intro a ha
    exact newViewKeys_mem_handleNewBlock unspent utxos (List.mem_map.2 ⟨a, ha, rfl⟩)
  generalize hu : handleNewBlock unspent utxos = u1 at hkeys hfold
  conv_lhs => rw [handleNewBlock]
  rw [hfold]
  refine List.filter_eq_self.2 ?_
  intro kv hkv
  simp only [decide_eq_true_eq, not_and, not_not]
  intro _
  exact hkeys kv hkv

/-- C3: reconciliation is idempotent — running the `NewBlock` arm twice with the
same unspent view equals running it once; every record whose key persists in
the new view survives with its reservation tag and amount untouched; and no
record whose key is absent from the new view remains (its reservation goes with
it). -/
theorem handleNewBlock_reconciliation (unspent : List UnspentItem) (utxos : Utxos) :
    handleNewBlock unspent (handleNewBlock unspent utxos) = handleNewBlock unspent utxos
    ∧ (∀ kv ∈ utxos, kv.1 ∈ newViewKeys unspent → kv ∈ handleNewBlock unspent utxos)
    ∧ (∀ kv ∈ handleNewBlock unspent utxos, kv.1 ∈ newViewKeys unspent) :=
  ⟨handleNewBlock_idem unspent utxos,
    fun _ hmem hkey => persist_handleNewBlock unspent utxos hmem hkey,
    fun _ hkv => mem_handleNewBlock_key unspent utxos hkv⟩

/-- One iteration of the reservation loop (lines 298-308): find the first value
in map order with the dealer's sell asset, an empty reservation and the given
amount, and tag it with the order id; `none` models the
`expect("utxo must exists")` panic when no such value exists. -/
def reserveOne (asset : AssetId) (a : Int) (oid : OrderId) : Utxos → Option Utxos
  | [] => none
  | kv :: rest =>
    if kv.2.item.asset = asset ∧ kv.2.reserve = none ∧ kv.2.amount = a then
      some ((kv.1, { kv.2 with reserve := some oid }) :: rest)
    else (reserveOne asset a oid rest).map (kv :: ·)

/-- The whole reservation loop: one `reserveOne` per selected amount. -/
def reserveLoop (asset : AssetId) (oid : OrderId) : List Int → Utxos → Option Utxos
  | [], utxos => some utxos
  | a :: rest, utxos =>
    match reserveOne asset a oid utxos with
    | none => none
    | some utxos' => reserveLoop asset oid rest utxos'

/-- Relation between a ledger and the ledger after some reservation steps for
order `oid`: every entry keeps its key and is either untouched or was
unreserved and is now tagged `oid`. -/
def ResStep (oid : OrderId) (kv kv' : TxOut × Utxo) : Prop :=
  kv'.1 = kv.1 ∧
    (kv' = kv ∨ (kv.2.reserve = none ∧ kv'.2 = { kv.2 with reserve := some oid }))

lemma resStep_refl (oid : OrderId) (l : Utxos) : List.Forall₂ (ResStep oid) l l := by
  induction l with
  | nil => exact List.Forall₂.nil
  | cons kv rest ih => exact List.Forall₂.cons ⟨rfl, Or.inl rfl⟩ ih

lemma resStep_trans {oid : OrderId} {a b c : Utxos}
    (h1 : List.Forall₂ (ResStep oid) a b) (h2 : List.Forall₂ (ResStep oid) b c) :
    List.Forall₂ (ResStep oid) a c := by
  induction h1 generalizing c with
  | nil =>
    cases h2
    exact List.Forall₂.nil
  | cons hab h1' ih =>
    cases h2 with
    | cons hbc h2' =>
      refine List.Forall₂.cons ?_ (ih h2')
      obtain ⟨hk1, hd1⟩ := hab
      obtain ⟨hk2, hd2⟩ := hbc
      refine ⟨hk2.trans hk1, ?_⟩
      rcases hd1 with rfl | ⟨hres, hset⟩
      · exact hd2
      · rcases hd2 with rfl | ⟨hres2, _⟩
        · exact Or.inr ⟨hres, hset⟩
        · rw [hset] at hres2
          simp at hres2

lemma reserveOne_forall₂ {asset : AssetId} {a : Int} {oid : OrderId} :
    ∀ {utxos utxos' : Utxos}, reserveOne asset a oid utxos = some utxos' →
      List.Forall₂ (ResStep oid) utxos utxos' := by
  intro utxos
  induction utxos with
  | nil => intro utxos' h; simp [reserveOne] at h
  | cons kv rest ih =>
    intro utxos' h
    unfold reserveOne at h
    split at h
    · rename_i hcond
      cases h
      exact List.Forall₂.cons ⟨rfl, Or.inr ⟨hcond.2.1, rfl⟩⟩ (resStep_refl oid rest)
    · cases hrec : reserveOne asset a oid rest with
      | none => rw [hrec] at h; simp at h
      | some rest' =>
        rw [hrec] at h
        simp only [Option.map_some'] at h
        cases h
        exact List.Forall₂.cons ⟨rfl, Or.inl rfl⟩ (ih hrec)

lemma reserveLoop_forall₂ {asset : AssetId} {oid : OrderId} :
    ∀ {amounts : List Int} {utxos utxos' : Utxos},
      reserveLoop asset oid amounts utxos = some utxos' →
      List.Forall₂ (ResStep oid) utxos utxos' := by
  intro amounts
  induction amounts with
  | nil =>
    intro utxos utxos' h
    cases h
    exact resStep_refl oid _
  | cons a rest ih =>
    intro utxos utxos' h
    unfold reserveLoop at h
    cases hone : reserveOne asset a oid utxos with
    | none => rw [hone] at h; cases h
    | some u1 =>
      rw [hone] at h
      exact resStep_trans (reserveOne_forall₂ hone) (ih h)

/-- C1: a reservation tag is an `Option OrderId`, so every coin record carries
at most one order tag at any time; and when the quote-commitment reservation
loop succeeds, each ledger entry keeps its key and is either left untouched or
had an empty reservation and is now tagged with the committed order — an
existing tag is never overwritten by the loop. -/
theorem reservation_exclusive (asset : AssetId) (oid : OrderId)
    (amounts : List Int) (utxos utxos' : Utxos)
    (h : reserveLoop asset oid amounts utxos = some utxos') :
    List.Forall₂ (ResStep oid) utxos utxos'
    ∧ (∀ (u : Utxo) (o₁ o₂ : OrderId), u.reserve = some o₁ → u.reserve = some o₂ → o₁ = o₂) :=
  ⟨reserveLoop_forall₂ h, fun _ _ _ h₁ h₂ => by rw [h₁] at h₂; exact (Option.some.inj h₂)⟩

/-- Asset reference data (the fields of `sideswap_api::Asset` the dealer
reads). -/
structure Asset where
  asset_id : AssetId
  ticker : String
deriving DecidableEq, Repr

/-- `TICKER_LBTC` from the API crate: the ticker of the network's native
bitcoin-like asset. -/
def TICKER_LBTC : String := "L-BTC"

/-- The fields of an `RfqCreated` notification the dealer reads. -/
structure Rfq where
  order_id : OrderId
  send_asset : AssetId
  recv_asset : AssetId
  send_amount : Int
deriving DecidableEq, Repr

/-- Result of a completed (non-panicking) `RfqCreated` handler run:
the two state components and whether a `MatchQuote` request was sent. -/
structure RfqOutcome where
  utxos : Utxos
  swaps : Swaps
  quoteSent : Bool
deriving DecidableEq, Repr

/-- `swaps.get(..)` on the order table in map order. -/
def swapsFind (oid : OrderId) : Swaps → Option ActiveSwap
  | [] => none
  | kv :: rest => if kv.1 = oid then some kv.2 else swapsFind oid rest

/-- In-place update of the (unique) entry of an order id, as done through
`swaps.get_mut(..)`. -/
def swapsUpdate (oid : OrderId) (v : ActiveSwap) : Swaps → Swaps
  | [] => []
  | kv :: rest => if kv.1 = oid then (oid, v) :: rest else kv :: swapsUpdate oid v rest

/-- `swaps.insert(..)`: replace the existing entry or append a new one. -/
def swapsInsert (oid : OrderId) (v : ActiveSwap) (swaps : Swaps) : Swaps :=
  if (swapsFind oid swaps).isSome then swapsUpdate oid v swaps else swaps ++ [(oid, v)]

/-- `available_utxos` of the `RfqCreated` arm: amounts of the values whose
unspent item has the dealer's sell asset and whose reservation is empty. -/
def availableAmounts (asset : AssetId) (utxos : Utxos) : List Int :=
  (utxos.filter (fun kv => decide (kv.2.item.asset = asset ∧ kv.2.reserve = none))).map
    (fun kv => kv.2.amount)

/-- The `RfqCreated` arm after the native-asset validation (lines 224-318).
Oracle parameters stand for the external collaborators: `proposalResult` is the
outcome of `dealer::get_proposal`, `quoteResult` the venue's answer to the
`MatchQuote` request, `select_utxo` the external `types::select_utxo` function.
`none` models a panic (a failed `assert!` or `expect`); a `some` outcome skips
(`continue`) or completes with the updated state. -/
def rfqQuoting (max_trade_amount : Int) (proposalResult : Except String Int)
    (quoteResult : Except String Unit) (select_utxo : List Int → Int → List Int)
    (rfq_recv_asset ref_send_asset : Asset) (rfq : Rfq)
    (utxos : Utxos) (swaps : Swaps) : Option RfqOutcome :=
  match proposalResult with
  | .error _ => some ⟨utxos, swaps, false⟩
  | .ok proposal =>
    if (if rfq_recv_asset.ticker = TICKER_LBTC then proposal else rfq.send_amount)
        > max_trade_amount then
      some ⟨utxos, swaps, false⟩
    else
      if (availableAmounts rfq_recv_asset.asset_id utxos).sum < proposal then
        some ⟨utxos, swaps, false⟩
      else
        let result := select_utxo (availableAmounts rfq_recv_asset.asset_id utxos) proposal
        let change_amount := result.sum - proposal
        if change_amount < 0 then none
        else
          match quoteResult with
          | .error _ => some ⟨utxos, swaps, true⟩
          | .ok _ =>
            match reserveLoop rfq_recv_asset.asset_id rfq.order_id result utxos with
            | none => none
            | some utxos' =>
              some ⟨utxos',
                swapsInsert rfq.order_id
                  ⟨proposal, change_amount, rfq_recv_asset.asset_id, none⟩ swaps,
                true⟩

/-- The whole `RfqCreated` arm (lines 205-319): resolve both assets of the pair
(panic if unknown), assert that the pair has the native ticker on a leg, then
run the quoting stage. -/
def handleRfqCreated (assets : List Asset) (max_trade_amount : Int)
    (proposalResult : Except String Int) (quoteResult : Except String Unit)
    (select_utxo : List Int → Int → List Int) (rfq : Rfq)
    (utxos : Utxos) (swaps : Swaps) : Option RfqOutcome :=
  match assets.find? (fun a => decide (a.asset_id = rfq.recv_asset)) with
  | none => none
  | some rfq_recv_asset =>
    match assets.find? (fun a => decide (a.asset_id = rfq.send_asset)) with
    | none => none
    | some ref_send_asset =>
      if rfq_recv_asset.ticker = TICKER_LBTC ∨ ref_send_asset.ticker = TICKER_LBTC then
        rfqQuoting max_trade_amount proposalResult quoteResult select_utxo
          rfq_recv_asset ref_send_asset rfq utxos swaps
      else none

lemma rfqQuoting_quote_err_state (max_trade_amount : Int)
    (proposalResult : Except String Int) (select_utxo : List Int → Int → List Int)
    (recvA sendA : Asset) (rfq : Rfq) (utxos : Utxos) (swaps : Swaps) (e : String) :
    rfqQuoting max_trade_amount proposalResult (Except.error e) select_utxo
        recvA sendA rfq utxos swaps = none
    ∨ ∃ b, rfqQuoting max_trade_amount proposalResult (Except.error e) select_utxo
        recvA sendA rfq utxos swaps = some ⟨utxos, swaps, b⟩ := by
  cases proposalResult with
  | error msg => exact Or.inr ⟨false, rfl⟩
  | ok proposal =>
    simp only [rfqQuoting]
    by_cases h1 : (if recvA.ticker = TICKER_LBTC then proposal else rfq.send_amount)
        > max_trade_amount
    · rw [if_pos h1]; exact Or.inr ⟨false, rfl⟩
    · rw [if_neg h1]
      by_cases h2 : (availableAmounts recvA.asset_id utxos).sum < proposal
      · rw [if_pos h2]; exact Or.inr ⟨false, rfl⟩
      · rw [if_neg h2]
        by_cases h3 : (select_utxo (availableAmounts recvA.asset_id utxos) proposal).sum
            - proposal < 0
        · rw [if_pos h3]; exact Or.inl rfl
        · rw [if_neg h3]; exact Or.inr ⟨true, rfl⟩

lemma handleRfqCreated_quote_err_state (assets : List Asset) (max_trade_amount : Int)
    (proposalResult : Except String Int) (select_utxo : List Int → Int → List Int)
    (rfq : Rfq) (utxos : Utxos) (swaps : Swaps) (e : String) :
    handleRfqCreated assets max_trade_amount proposalResult (Except.error e) select_utxo
        rfq utxos swaps = none
    ∨ ∃ b, handleRfqCreated assets max_trade_amount proposalResult (Except.error e) select_utxo
        rfq utxos swaps = some ⟨utxos, swaps, b⟩ := by
  cases hrecv : assets.find? (fun a => decide (a.asset_id = rfq.recv_asset)) with
  | none => exact Or.inl (by simp [handleRfqCreated, hrecv])
  | some recvA =>
    cases hsend : assets.find? (fun a => decide (a.asset_id = rfq.send_asset)) with
    | none => exact Or.inl (by simp [handleRfqCreated, hrecv, hsend])
    | some sendA =>
      by_cases hv : recvA.ticker = TICKER_LBTC ∨ sendA.ticker = TICKER_LBTC
      · have heq : handleRfqCreated assets max_trade_amount proposalResult (Except.error e)
            select_utxo rfq utxos swaps
            = rfqQuoting max_trade_amount proposalResult (Except.error e) select_utxo
                recvA sendA rfq utxos swaps := by
          simp [handleRfqCreated, hrecv, hsend, hv]
        rw [heq]
        exact rfqQuoting_quote_err_state max_trade_amount proposalResult select_utxo
          recvA sendA rfq utxos swaps e
      · exact Or.inl (by simp [handleRfqCreated, hrecv, hsend, hv])

/-- C2: when the venue rejects the `MatchQuote` request and the `RfqCreated`
handler finishes without panicking, the handler has left both state components
unchanged, so for a fresh order id no UTXO carries its reservation tag and no
order record for it exists afterwards. -/
theorem rfq_quote_rejected_atomic (assets : List Asset) (max_trade_amount : Int)
    (proposalResult : Except String Int) (select_utxo : List Int → Int → List Int)
    (rfq : Rfq) (utxos : Utxos) (swaps : Swaps) (e : String) (out : RfqOutcome)
    (hout : handleRfqCreated assets max_trade_amount proposalResult (Except.error e)
      select_utxo rfq utxos swaps = some out)
    (hfresh_utxos : ∀ kv ∈ utxos, kv.2.reserve ≠ some rfq.order_id)
    (hfresh_swaps : swapsFind rfq.order_id swaps = none) :
    out.utxos = utxos ∧ out.swaps = swaps
    ∧ (∀ kv ∈ out.utxos, kv.2.reserve ≠ some rfq.order_id)
    ∧ swapsFind rfq.order_id out.swaps = none := by
  rcases handleRfqCreated_quote_err_state assets max_trade_amount proposalResult select_utxo
      rfq utxos swaps e with hnone | ⟨b, hsome⟩
  · rw [hnone] at hout; cases hout
  · rw [hsome] at hout
    cases hout
    exact ⟨rfl, rfl, hfresh_utxos, hfresh_swaps⟩

/-- C5 (amended): given that both legs of the RFQ resolve to known assets,
processing proceeds past the native-asset validation to the quoting stage if
and only if at least one leg's ticker is the native `TICKER_LBTC`; when neither
leg is native the handler is a fatal assertion failure. -/
theorem rfq_native_leg_validation (assets : List Asset) (max_trade_amount : Int)
    (proposalResult : Except String Int) (quoteResult : Except String Unit)
    (select_utxo : List Int → Int → List Int) (rfq : Rfq)
    (utxos : Utxos) (swaps : Swaps) (recvA sendA : Asset)
    (hrecv : assets.find? (fun a => decide (a.asset_id = rfq.recv_asset)) = some recvA)
    (hsend : assets.find? (fun a => decide (a.asset_id = rfq.send_asset)) = some sendA) :
    (¬(recvA.ticker = TICKER_LBTC ∨ sendA.ticker = TICKER_LBTC) →
      handleRfqCreated assets max_trade_amount proposalResult quoteResult select_utxo
        rfq utxos swaps = none)
    ∧ ((recvA.ticker = TICKER_LBTC ∨ sendA.ticker = TICKER_LBTC) →
      handleRfqCreated assets max_trade_amount proposalResult quoteResult select_utxo
        rfq utxos swaps
      = rfqQuoting max_trade_amount proposalResult quoteResult select_utxo
          recvA sendA rfq utxos swaps) := by
  constructor
  · intro hinv
    simp [handleRfqCreated, hrecv, hsend, hinv]
  · intro hvalid
    simp [handleRfqCreated, hrecv, hsend, hvalid]

/-- C5 (counterexample): an RFQ whose two legs both resolve to the native
bitcoin-like asset passes the validation and proceeds all the way to sending a
quote, contradicting that only pairs with exactly one native leg proceed. -/
theorem rfq_both_sides_native_proceeds :
    (Asset.ticker ⟨"aid", "L-BTC"⟩ = TICKER_LBTC)
    ∧ (([⟨"aid", "L-BTC"⟩] : List Asset).find?
        (fun a => decide (a.asset_id = Rfq.recv_asset ⟨"o1", "aid", "aid", 100⟩))
        = some ⟨"aid", "L-BTC"⟩)
    ∧ (([⟨"aid", "L-BTC"⟩] : List Asset).find?
        (fun a => decide (a.asset_id = Rfq.send_asset ⟨"o1", "aid", "aid", 100⟩))
        = some ⟨"aid", "L-BTC"⟩)
    ∧ ((handleRfqCreated [⟨"aid", "L-BTC"⟩] 1000 (Except.ok 50) (Except.ok ())
          (fun _ p => [p]) ⟨"o1", "aid", "aid", 100⟩
          [(⟨"t", 0⟩, ⟨⟨⟨"t", 0⟩, "aid", 50, 1⟩, none, 50⟩)] []).map RfqOutcome.quoteSent
        = some true) := by
  decide

/-- C6: when the total amount of unreserved UTXOs of the asset the dealer must
deliver is strictly below the proposal, the `RfqCreated` handler skips the RFQ:
no quote request is sent and the ledger and order table are returned
unchanged. -/
theorem rfq_insufficient_funds_skip (assets : List Asset) (max_trade_amount : Int)
    (proposalResult : Except String Int) (quoteResult : Except String Unit)
    (select_utxo : List Int → Int → List Int) (rfq : Rfq)
    (utxos : Utxos) (swaps : Swaps) (recvA sendA : Asset) (p : Int)
    (hrecv : assets.find? (fun a => decide (a.asset_id = rfq.recv_asset)) = some recvA)
    (hsend : assets.find? (fun a => decide (a.asset_id = rfq.send_asset)) = some sendA)
    (hvalid : recvA.ticker = TICKER_LBTC ∨ sendA.ticker = TICKER_LBTC)
    (hp : proposalResult = Except.ok p)
    (hmax : ¬((if recvA.ticker = TICKER_LBTC then p else rfq.send_amount) > max_trade_amount))
    (hinsuff : (availableAmounts recvA.asset_id utxos).sum < p) :
    handleRfqCreated assets max_trade_amount proposalResult quoteResult select_utxo
      rfq utxos swaps = some ⟨utxos, swaps, false⟩ := by
  have heq : handleRfqCreated assets max_trade_amount proposalResult quoteResult select_utxo
      rfq utxos swaps
      = rfqQuoting max_trade_amount proposalResult quoteResult select_utxo
          recvA sendA rfq utxos swaps := by
    simp [handleRfqCreated, hrecv, hsend, hvalid]
  rw [heq, hp]
  simp only [rfqQuoting]
  rw [if_neg hmax, if_pos hinsuff]

/-- Status carried by an `RfqRemoved` notification (from the API crate; the
handler only distinguishes `Accepted` from everything else). -/
inductive RfqStatus where
  | Accepted
  | Expired
  | Cancelled
deriving DecidableEq, Repr

/-- The `Notification::RfqRemoved` arm (lines 321-325): release the order's
reservations unless the venue reports the RFQ as accepted. -/
def handleRfqRemoved (oid : OrderId) (status : RfqStatus) (utxos : Utxos) : Utxos :=
  if status ≠ RfqStatus.Accepted then free_reservation oid utxos else utxos

/-- The swap terms echoed for review (`ReviewOffer` payload fields the dealer
reads). -/
structure ReviewOfferPayload where
  accept_required : Bool
  swap : Swap
deriving DecidableEq, Repr

/-- The per-order swap states the venue can notify (`SwapState`). -/
inductive SwapState where
  | ReviewOffer (offer : ReviewOfferPayload)
  | WaitPsbt
  | WaitSign (psbt : String)
  | Failed (error : String)
  | Done (txid : String)
deriving DecidableEq, Repr

/-- The `Notification::Swap` arm (lines 327-441).  `rpcOk` is the oracle for
the wallet RPC pipeline of the `WaitPsbt`/`WaitSign` arms (those arms `expect`
every RPC result, so a pipeline failure panics; a rejected venue `Swap` request
is only logged).  The handler returns the updated `(utxos, swaps)` pair, or
`none` where the source panics: unknown order id, a `ReviewOffer` assertion
failure, a missing stored swap payload in `WaitPsbt`, or an RPC failure. -/
def handleSwap (rpcOk : Bool) (oid : OrderId) (state : SwapState)
    (utxos : Utxos) (swaps : Swaps) : Option (Utxos × Swaps) :=
  match swapsFind oid swaps with
  | none => none
  | some active_swap =>
    match state with
    | .ReviewOffer offer =>
      if offer.accept_required then none
      else if offer.swap.send_asset = active_swap.sell_asset then
        if offer.swap.send_amount = active_swap.proposal then
          some (utxos, swapsUpdate oid { active_swap with swap := some offer.swap } swaps)
        else none
      else none
    | .WaitPsbt =>
      match active_swap.swap with
      | none => none
      | some _ => if rpcOk then some (utxos, swaps) else none
    | .WaitSign _ => if rpcOk then some (utxos, swaps) else none
    | .Failed _ => some (free_reservation oid utxos, swaps)
    | .Done _ => some (utxos, swaps)

/-- C8: an `RfqRemoved` notification with a non-`Accepted` status runs the
release, so afterwards no UTXO carries the order's tag; with an `Accepted`
status the ledger is returned completely unchanged. -/
theorem rfq_removed_cleanup (oid : OrderId) (status : RfqStatus) (utxos : Utxos) :
    (status ≠ RfqStatus.Accepted →
      handleRfqRemoved oid status utxos = free_reservation oid utxos
      ∧ ∀ kv ∈ handleRfqRemoved oid status utxos, kv.2.reserve ≠ some oid)
    ∧ (status = RfqStatus.Accepted → handleRfqRemoved oid status utxos = utxos) := by
  constructor
  · intro h
    have heq : handleRfqRemoved oid status utxos = free_reservation oid utxos := by
      simp [handleRfqRemoved, h]
    refine ⟨heq, ?_⟩
    rw [heq]
    exact free_reservation_clears oid utxos
  · intro h
    simp [handleRfqRemoved, h]

/-- C10: a swap-state notification whose order id is not in the order table is
fatal — the handler panics on the lookup regardless of the carried state. -/
theorem swap_unknown_order_fatal (rpcOk : Bool) (oid : OrderId) (state : SwapState)
    (utxos : Utxos) (swaps : Swaps) (h : swapsFind oid swaps = none) :
    handleSwap rpcOk oid state utxos swaps = none := by
  simp [handleSwap, h]

/-- C4 (counterexample): after both terminal notifications (`Failed`, `Done`)
the order's record is still present in the order table — the handler never
drops it, contradicting the claim that terminal states remove the record. -/
theorem swap_terminal_record_not_dropped :
    ((handleSwap true "o1" (SwapState.Failed "err")
        [(⟨"t", 0⟩, ⟨⟨⟨"t", 0⟩, "ast", 50, 1⟩, some "o1", 50⟩)]
        [("o1", ⟨90, 0, "ast", none⟩)]).map
      (fun p => (swapsFind "o1" p.2).isSome) = some true)
    ∧ ((handleSwap true "o1" (SwapState.Done "tx")
        [] [("o1", ⟨90, 0, "ast", none⟩)]).map
      (fun p => (swapsFind "o1" p.2).isSome) = some true) := by
  decide

/-- C4 (amended): for a known order, a `Failed` notification releases every
reservation tagged with the order and leaves the order table unchanged, and a
`Done` notification changes neither state component; in both cases the order's
record remains in the order table (it is not dropped). -/
theorem swap_terminal_semantics (rpcOk : Bool) (oid : OrderId) (err txid : String)
    (utxos : Utxos) (swaps : Swaps) (a : ActiveSwap)
    (h : swapsFind oid swaps = some a) :
    handleSwap rpcOk oid (SwapState.Failed err) utxos swaps
        = some (free_reservation oid utxos, swaps)
    ∧ (∀ kv ∈ free_reservation oid utxos, kv.2.reserve ≠ some oid)
    ∧ handleSwap rpcOk oid (SwapState.Done txid) utxos swaps = some (utxos, swaps)
    ∧ swapsFind oid swaps = some a := by
  refine ⟨by simp [handleSwap, h], free_reservation_clears oid utxos,
    by simp [handleSwap, h], h⟩

/-- C9 (counterexample): a `ReviewOffer` whose echoed terms match the committed
proposal exactly but which requires manual acceptance is still fatal — the
handler also asserts `!offer.accept_required`, so matching terms alone do not
make processing succeed. -/
theorem review_offer_accept_required_fatal :
    handleSwap true "o1"
        (SwapState.ReviewOffer ⟨true, ⟨"ast", 90, "lbtc", 100⟩⟩) []
        [("o1", ⟨90, 0, "ast", none⟩)] = none
    ∧ Swap.send_asset ⟨"ast", 90, "lbtc", 100⟩ = ActiveSwap.sell_asset ⟨90, 0, "ast", none⟩
    ∧ Swap.send_amount ⟨"ast", 90, "lbtc", 100⟩ = ActiveSwap.proposal ⟨90, 0, "ast", none⟩ := by
  decide

/-- C9 (amended): for a known order, a `ReviewOffer` notification succeeds if
and only if the offer does not require manual acceptance, its echoed send asset
equals the order's recorded sell asset and its echoed send amount equals the
recorded proposal; on success the swap payload is stored while the record's
proposal and sell asset are unchanged, and any mismatch is fatal. -/
theorem review_offer_consistency (rpcOk : Bool) (oid : OrderId)
    (offer : ReviewOfferPayload) (utxos : Utxos) (swaps : Swaps) (a : ActiveSwap)
    (h : swapsFind oid swaps = some a) :
    ((handleSwap rpcOk oid (SwapState.ReviewOffer offer) utxos swaps).isSome ↔
      (offer.accept_required = false ∧ offer.swap.send_asset = a.sell_asset
        ∧ offer.swap.send_amount = a.proposal))
    ∧ (offer.accept_required = false → offer.swap.send_asset = a.sell_asset →
        offer.swap.send_amount = a.proposal →
        handleSwap rpcOk oid (SwapState.ReviewOffer offer) utxos swaps
          = some (utxos, swapsUpdate oid { a with swap := some offer.swap } swaps)
        ∧ ActiveSwap.proposal { a with swap := some offer.swap } = a.proposal
        ∧ ActiveSwap.sell_asset { a with swap := some offer.swap } = a.sell_asset) := by
  constructor
  · constructor
    · intro hsome
      by_cases h1 : offer.accept_required
      · simp [handleSwap, h, h1] at hsome
      · by_cases h2 : offer.swap.send_asset = a.sell_asset
        · by_cases h3 : offer.swap.send_amount = a.proposal
          · exact ⟨by simp [h1], h2, h3⟩
          · simp [handleSwap, h, h1, h2, h3] at hsome
        · simp [handleSwap, h, h1, h2] at hsome
    · rintro ⟨h1, h2, h3⟩
      simp [handleSwap, h, h1, h2, h3]
  · intro h1 h2 h3
    exact ⟨by simp [handleSwap, h, h1, h2, h3], rfl, rfl⟩

/-!  Concrete witnesses: each applies the corresponding theorem at a concrete
input, discharging its hypotheses by evaluation. -/

def wit_utxo_reserved : Utxos := [(⟨"t", 0⟩, ⟨⟨⟨"t", 0⟩, "ast", 50, 1⟩, some "o2", 50⟩)]

theorem free_reservation_release_semantics_witness :
    free_reservation "o1" wit_utxo_reserved = wit_utxo_reserved :=
  (free_reservation_release_semantics "o1" wit_utxo_reserved).2.2.2 (by decide)

def wit_c3_ledger : Utxos := [(⟨"t", 0⟩, ⟨⟨⟨"t", 0⟩, "ast", 50, 1⟩, some "o1", 50⟩)]

def wit_c3_view : List UnspentItem := [⟨⟨"t", 0⟩, "ast", 50, 3⟩]

theorem handleNewBlock_reconciliation_witness :
    (⟨"t", 0⟩, (⟨⟨⟨"t", 0⟩, "ast", 50, 1⟩, some "o1", 50⟩ : Utxo)) ∈
      handleNewBlock wit_c3_view wit_c3_ledger :=
  (handleNewBlock_reconciliation wit_c3_view wit_c3_ledger).2.1
    (⟨"t", 0⟩, ⟨⟨⟨"t", 0⟩, "ast", 50, 1⟩, some "o1", 50⟩) (by decide) (by decide)

def wit_c1_before : Utxos := [(⟨"t", 0⟩, ⟨⟨⟨"t", 0⟩, "ast", 50, 1⟩, none, 50⟩)]

def wit_c1_after : Utxos := [(⟨"t", 0⟩, ⟨⟨⟨"t", 0⟩, "ast", 50, 1⟩, some "o1", 50⟩)]

theorem reservation_exclusive_witness :
    List.Forall₂ (ResStep "o1") wit_c1_before wit_c1_after
    ∧ (∀ (u : Utxo) (o₁ o₂ : OrderId), u.reserve = some o₁ → u.reserve = some o₂ → o₁ = o₂) :=
  reservation_exclusive "ast" "o1" [50] wit_c1_before wit_c1_after (by decide)

def wit_c2_utxos : Utxos := [(⟨"t", 0⟩, ⟨⟨⟨"t", 0⟩, "aid", 50, 1⟩, none, 50⟩)]

theorem rfq_quote_rejected_atomic_witness :
    RfqOutcome.utxos ⟨wit_c2_utxos, [], true⟩ = wit_c2_utxos
    ∧ RfqOutcome.swaps ⟨wit_c2_utxos, [], true⟩ = []
    ∧ (∀ kv ∈ RfqOutcome.utxos ⟨wit_c2_utxos, [], true⟩, kv.2.reserve ≠ some "o1")
    ∧ swapsFind "o1" (RfqOutcome.swaps ⟨wit_c2_utxos, [], true⟩) = none :=
  rfq_quote_rejected_atomic [⟨"aid", "L-BTC"⟩] 1000 (Except.ok 50) (fun _ p => [p])
    ⟨"o1", "aid", "aid", 100⟩ wit_c2_utxos [] "rejected" ⟨wit_c2_utxos, [], true⟩
    (by decide) (by decide) (by decide)

theorem rfq_native_leg_validation_witness :
    handleRfqCreated [⟨"aid", "L-BTC"⟩, ⟨"usd", "USDt"⟩] 1000 (Except.ok 50) (Except.ok ())
        (fun _ p => [p]) ⟨"o1", "usd", "aid", 100⟩ [] []
      = rfqQuoting 1000 (Except.ok 50) (Except.ok ()) (fun _ p => [p])
          ⟨"aid", "L-BTC"⟩ ⟨"usd", "USDt"⟩ ⟨"o1", "usd", "aid", 100⟩ [] [] :=
  (rfq_native_leg_validation [⟨"aid", "L-BTC"⟩, ⟨"usd", "USDt"⟩] 1000 (Except.ok 50)
      (Except.ok ()) (fun _ p => [p]) ⟨"o1", "usd", "aid", 100⟩ [] []
      ⟨"aid", "L-BTC"⟩ ⟨"usd", "USDt"⟩ (by decide) (by decide)).2 (by decide)

def wit_c6_utxos : Utxos := [(⟨"t", 0⟩, ⟨⟨⟨"t", 0⟩, "aid", 30, 1⟩, none, 30⟩)]

theorem rfq_insufficient_funds_skip_witness :
    handleRfqCreated [⟨"aid", "L-BTC"⟩] 1000 (Except.ok 50) (Except.ok ())
        (fun _ p => [p]) ⟨"o1", "aid", "aid", 100⟩ wit_c6_utxos []
      = some ⟨wit_c6_utxos, [], false⟩ :=
  rfq_insufficient_funds_skip [⟨"aid", "L-BTC"⟩] 1000 (Except.ok 50) (Except.ok ())
    (fun _ p => [p]) ⟨"o1", "aid", "aid", 100⟩ wit_c6_utxos [] ⟨"aid", "L-BTC"⟩
    ⟨"aid", "L-BTC"⟩ 50 (by decide) (by decide) (by decide) rfl (by decide) (by decide)

def wit_c8_utxos : Utxos := [(⟨"t", 0⟩, ⟨⟨⟨"t", 0⟩, "ast", 50, 1⟩, some "o1", 50⟩)]

theorem rfq_removed_cleanup_witness :
    handleRfqRemoved "o1" RfqStatus.Expired wit_c8_utxos = free_reservation "o1" wit_c8_utxos
    ∧ ∀ kv ∈ handleRfqRemoved "o1" RfqStatus.Expired wit_c8_utxos,
        kv.2.reserve ≠ some "o1" :=
  (rfq_removed_cleanup "o1" RfqStatus.Expired wit_c8_utxos).1 (by decide)

theorem swap_unknown_order_fatal_witness :
    handleSwap true "o2" (SwapState.Done "tx") [] [("o1", ⟨90, 0, "ast", none⟩)] = none :=
  swap_unknown_order_fatal true "o2" (SwapState.Done "tx") [] [("o1", ⟨90, 0, "ast", none⟩)]
    (by decide)

def wit_c4_utxos : Utxos := [(⟨"t", 0⟩, ⟨⟨⟨"t", 0⟩, "ast", 50, 1⟩, some "o1", 50⟩)]

def wit_c4_swaps : Swaps := [("o1", ⟨90, 0, "ast", none⟩)]

theorem swap_terminal_semantics_witness :
    handleSwap true "o1" (SwapState.Failed "err") wit_c4_utxos wit_c4_swaps
        = some (free_reservation "o1" wit_c4_utxos, wit_c4_swaps)
    ∧ (∀ kv ∈ free_reservation "o1" wit_c4_utxos, kv.2.reserve ≠ some "o1")
    ∧ handleSwap true "o1" (SwapState.Done "tx") wit_c4_utxos wit_c4_swaps
        = some (wit_c4_utxos, wit_c4_swaps)
    ∧ swapsFind "o1" wit_c4_swaps = some ⟨90, 0, "ast", none⟩ :=
  swap_terminal_semantics true "o1" "err" "tx" wit_c4_utxos wit_c4_swaps
    ⟨90, 0, "ast", none⟩ (by decide)

def wit_c9_swaps : Swaps := [("o1", ⟨90, 0, "ast", none⟩)]

theorem review_offer_consistency_witness :
    handleSwap true "o1" (SwapState.ReviewOffer ⟨false, ⟨"ast", 90, "lbtc", 100⟩⟩)
        [] wit_c9_swaps
      = some ([], swapsUpdate "o1" ⟨90, 0, "ast", some ⟨"ast", 90, "lbtc", 100⟩⟩ wit_c9_swaps)
    ∧ ActiveSwap.proposal ⟨90, 0, "ast", some ⟨"ast", 90, "lbtc", 100⟩⟩ = 90
    ∧ ActiveSwap.sell_asset ⟨90, 0, "ast", some ⟨"ast", 90, "lbtc", 100⟩⟩ = "ast" :=
  (review_offer_consistency true "o1" ⟨false, ⟨"ast", 90, "lbtc", 100⟩⟩ [] wit_c9_swaps
    ⟨90, 0, "ast", none⟩ (by decide)).2 rfl rfl rfl

end SideswapDealer
